import Mathlib

/-!
Shallow embedding of the interactive timeline state machine of
`src/src/App.tsx` (the "theft-bisect" video bisection tool), together with
theorems settling the specification's claims about it.

Times are modelled as rationals (`ℚ`): the source works with real-valued
seconds, and every operation it performs (min, max, addition, halving) is
exact on rationals, so the embedding is executable and decidable on
concrete inputs.

Each media-side effect a handler performs (flipping the readiness flag to
pending, issuing a seek, play, pause) is recorded in an ordered action
list, so that claims about which commands are issued and in which order
are statable.
-/

namespace TheftBisect

/-- The `BisectState` record of App.tsx (lines 4-8): the search interval
bounds and the playhead position, in seconds. -/
structure BisectState where
  startTime : ℚ
  endTime : ℚ
  currentTime : ℚ
deriving DecidableEq, Repr

/-- A side effect a handler performs on the media primitive or the
readiness gate, in program order. `setPending` is `setIsVideoReady(false)`,
`seekCmd t` is `video.currentTime = t`, `playCmd`/`pauseCmd` are
`video.play()`/`video.pause()`. -/
inductive Action where
  | setPending : Action
  | seekCmd : ℚ → Action
  | playCmd : Action
  | pauseCmd : Action
deriving DecidableEq, Repr

/-- `handleLoadedMetadata` (App.tsx lines 62-72): on metadata load the
interval is initialised to `[0, duration]` with the playhead at the
midpoint, and a seek to the midpoint is issued. -/
def initState (duration : ℚ) : BisectState :=
  { startTime := 0, endTime := duration, currentTime := duration / 2 }

/-- The pure interval transition of `handleBisect` (App.tsx lines 155-165):
verdict `true` ("item still there" / present) moves the start up to the
playhead, verdict `false` ("stolen" / absent) moves the end down to the
playhead; either way the new playhead is the midpoint of the new interval. -/
def handleBisectCore (b : BisectState) (itemStillThere : Bool) : BisectState :=
  if itemStillThere then
    { startTime := b.currentTime
      endTime := b.endTime
      currentTime := (b.currentTime + b.endTime) / 2 }
  else
    { startTime := b.startTime
      endTime := b.currentTime
      currentTime := (b.startTime + b.currentTime) / 2 }

/-- `handleBisect` with its effect trace (App.tsx lines 151-170): it first
sets readiness to pending (line 154, `setIsVideoReady(false)`), then
issues the seek to the new playhead (line 168). -/
def bisectOp (b : BisectState) (itemStillThere : Bool) : BisectState × List Action :=
  let b2 := handleBisectCore b itemStillThere
  (b2, [Action.setPending, Action.seekCmd b2.currentTime])

/-- `getTimeFromMousePosition` (App.tsx lines 191-198): guard returning 0
when no duration is known, then the x coordinate is clamped into the track
rectangle as a fraction of `[0,1]` and scaled by the duration. -/
def getTimeFromMousePosition (rectLeft rectWidth clientX duration : ℚ) : ℚ :=
  if duration = 0 then 0
  else max 0 (min 1 ((clientX - rectLeft) / rectWidth)) * duration

/-- The `playhead` branch of `handleMouseMove` (App.tsx lines 216-232):
the mapped time is clamped to `[0, duration]`, the interval expands to
include it (`min`/`max` against the old bounds), the playhead moves there
exactly, and a seek to it is issued. No readiness change occurs. -/
def playheadMove (duration : ℚ) (b : BisectState) (newTime : ℚ) :
    BisectState × List Action :=
  let constrainedTime := max 0 (min duration newTime)
  let newStartTime := min b.startTime constrainedTime
  let newEndTime := max b.endTime constrainedTime
  ({ startTime := newStartTime, endTime := newEndTime, currentTime := constrainedTime },
   [Action.seekCmd constrainedTime])

/-- The `startHandle` branch of `handleMouseMove` (App.tsx lines 233-248):
the new start is the mapped time clamped to `[0, endTime - 1]`; if the old
playhead is now left of the new start it is pulled up to it and a seek is
issued, otherwise no seek. The two sequential `setBisectState` calls in
the source compose to this single final state. -/
def startHandleMove (b : BisectState) (newTime : ℚ) : BisectState × List Action :=
  let constrainedTime := max 0 (min (b.endTime - 1) newTime)
  if b.currentTime < constrainedTime then
    ({ startTime := constrainedTime, endTime := b.endTime, currentTime := constrainedTime },
     [Action.seekCmd constrainedTime])
  else
    ({ startTime := constrainedTime, endTime := b.endTime, currentTime := b.currentTime },
     [])

/-- The `endHandle` branch of `handleMouseMove` (App.tsx lines 249-264):
the new end is the mapped time clamped to `[startTime + 1, duration]`; if
the old playhead is now right of the new end it is pulled down to it and a
seek is issued, otherwise no seek. -/
def endHandleMove (duration : ℚ) (b : BisectState) (newTime : ℚ) :
    BisectState × List Action :=
  let constrainedTime := max (b.startTime + 1) (min duration newTime)
  if constrainedTime < b.currentTime then
    ({ startTime := b.startTime, endTime := constrainedTime, currentTime := constrainedTime },
     [Action.seekCmd constrainedTime])
  else
    ({ startTime := b.startTime, endTime := constrainedTime, currentTime := b.currentTime },
     [])

/-- `handleTimelineClick` (App.tsx lines 283-302), the part past its
guards, written out independently from its own source lines: clamp the
mapped time to `[0, duration]`, expand the interval with `min`/`max`,
move the playhead, seek. -/
def timelineClickCore (duration : ℚ) (b : BisectState) (newTime : ℚ) :
    BisectState × List Action :=
  let constrainedTime := max 0 (min duration newTime)
  let newStartTime := min b.startTime constrainedTime
  let newEndTime := max b.endTime constrainedTime
  ({ startTime := newStartTime, endTime := newEndTime, currentTime := constrainedTime },
   [Action.seekCmd constrainedTime])

/-- `handleTimeUpdate` (App.tsx lines 95-107) acting on the pair
(interval, isPlaying): a no-op unless playing; while playing the model
playhead mirrors the reported media time `v`, and if `v` has reached or
passed `endTime` a seek back to `startTime` is issued. `isPlaying` is
never written by this handler. -/
def timeUpdateStep (b : BisectState) (isPlaying : Bool) (v : ℚ) :
    (BisectState × Bool) × List Action :=
  if isPlaying then
    let b2 := { b with currentTime := v }
    if b.endTime ≤ v then ((b2, isPlaying), [Action.seekCmd b.startTime])
    else ((b2, isPlaying), [])
  else ((b, isPlaying), [])

/-- `handlePause` (App.tsx lines 109-117): on a primitive-originated pause
while playing, the model transitions to paused and the playhead is
reconciled to the reported media time `v`. -/
def pauseEventStep (b : BisectState) (isPlaying : Bool) (v : ℚ) :
    BisectState × Bool :=
  if isPlaying then ({ b with currentTime := v }, false)
  else (b, isPlaying)

/-- `handlePlayPause` (App.tsx lines 129-148) acting on
(interval, isPlaying) with the primitive-reported position `v`: pausing
issues a pause command; starting playback first reseeks to `startTime`
when `v` is at/past the end or before the start, then issues play. -/
def playPauseStep (b : BisectState) (isPlaying : Bool) (v : ℚ) :
    Bool × List Action :=
  if isPlaying then (false, [Action.pauseCmd])
  else if b.endTime ≤ v ∨ v < b.startTime then
    (true, [Action.seekCmd b.startTime, Action.playCmd])
  else (true, [Action.playCmd])

/-- The spec's interval invariant:
`0 ≤ startTime ≤ currentTime ≤ endTime ≤ duration`. -/
def Inv (duration : ℚ) (b : BisectState) : Prop :=
  0 ≤ b.startTime ∧ b.startTime ≤ b.currentTime ∧
    b.currentTime ≤ b.endTime ∧ b.endTime ≤ duration

instance (duration : ℚ) (b : BisectState) : Decidable (Inv duration b) := by
  unfold Inv; infer_instance

/-- The ordering part of the invariant, without the duration bound:
`0 ≤ startTime ≤ currentTime ≤ endTime`. -/
def InvCore (b : BisectState) : Prop :=
  0 ≤ b.startTime ∧ b.startTime ≤ b.currentTime ∧ b.currentTime ≤ b.endTime

instance (b : BisectState) : Decidable (InvCore b) := by
  unfold InvCore; infer_instance

/-- Which draggable element is captured, the non-`null` values of the
`dragType` state (App.tsx lines 18-20). -/
inductive DragKind where
  | playhead : DragKind
  | startHandle : DragKind
  | endHandle : DragKind
deriving DecidableEq, Repr

/-- The surrounding application state (App.tsx lines 11-23): the optional
interval, the session duration, the readiness flag (`isVideoReady`), the
bisect step counter, the playback flag and the drag flag. -/
structure AppState where
  bisect : Option BisectState
  videoDuration : ℚ
  isVideoReady : Bool
  stepCount : ℕ
  isPlaying : Bool
  isDragging : Bool
deriving DecidableEq, Repr

/-- A click on a bisect button (App.tsx lines 451-466 with lines 151-170):
both buttons carry `disabled={!isVideoReady || isPlaying}`, so a click
while not ready or while playing never reaches `handleBisect`; the handler
itself returns before any mutation when no interval exists. Otherwise it
sets pending, installs the halved interval, seeks, and increments the step
count. -/
def appBisectClick (s : AppState) (itemStillThere : Bool) : AppState × List Action :=
  if ¬ s.isVideoReady ∨ s.isPlaying then (s, [])
  else
    match s.bisect with
    | none => (s, [])
    | some b =>
        let r := bisectOp b itemStillThere
        ({ s with bisect := some r.1, isVideoReady := false,
                  stepCount := s.stepCount + 1 }, r.2)

/-- A pointer move during a drag (App.tsx lines 210-266): the listener is
active only while dragging with an interval present; the mapped time is
computed once and the update dispatches on the captured drag kind. Neither
`stepCount` nor `isPlaying` nor `isVideoReady` is touched. -/
def appDragMove (s : AppState) (kind : DragKind) (rectLeft rectWidth clientX : ℚ) :
    AppState × List Action :=
  if ¬ s.isDragging then (s, [])
  else
    match s.bisect with
    | none => (s, [])
    | some b =>
        let newTime := getTimeFromMousePosition rectLeft rectWidth clientX s.videoDuration
        let r :=
          match kind with
          | DragKind.playhead => playheadMove s.videoDuration b newTime
          | DragKind.startHandle => startHandleMove b newTime
          | DragKind.endHandle => endHandleMove s.videoDuration b newTime
        ({ s with bisect := some r.1 }, r.2)

/-- `handleTimelineClick` at the application level (App.tsx lines
283-302): ignored during a drag or without an interval, otherwise the
one-shot expansion update on the clicked coordinate. -/
def appTimelineClick (s : AppState) (rectLeft rectWidth clientX : ℚ) :
    AppState × List Action :=
  if s.isDragging then (s, [])
  else
    match s.bisect with
    | none => (s, [])
    | some b =>
        let newTime := getTimeFromMousePosition rectLeft rectWidth clientX s.videoDuration
        let r := timelineClickCore s.videoDuration b newTime
        ({ s with bisect := some r.1 }, r.2)

/-- `handleReset` (App.tsx lines 173-181): drops the video and the
interval, clears readiness, and zeroes the step count. -/
def appReset (s : AppState) : AppState :=
  { s with bisect := none, isVideoReady := false, stepCount := 0 }

/-- `handleFileSelect` (App.tsx lines 26-32) for a valid video file:
readiness is cleared and the step count zeroed; the interval is replaced
only later, when metadata loads. -/
def appFileSelect (s : AppState) : AppState :=
  { s with isVideoReady := false, stepCount := 0 }

/-- `handlePlayPause` at the application level (App.tsx lines 129-148),
with `v` the position currently reported by the media primitive. -/
def appPlayPause (s : AppState) (v : ℚ) : AppState × List Action :=
  match s.bisect with
  | none => (s, [])
  | some b =>
      let r := playPauseStep b s.isPlaying v
      ({ s with isPlaying := r.1 }, r.2)

/-- `handleTimeUpdate` at the application level (App.tsx lines 95-107). -/
def appTimeUpdate (s : AppState) (v : ℚ) : AppState × List Action :=
  match s.bisect with
  | none => (s, [])
  | some b =>
      let r := timeUpdateStep b s.isPlaying v
      ({ s with bisect := some r.1.1, isPlaying := r.1.2 }, r.2)

/-- `handlePause` at the application level (App.tsx lines 109-117). -/
def appPauseEvent (s : AppState) (v : ℚ) : AppState :=
  match s.bisect with
  | none => s
  | some b =>
      let r := pauseEventStep b s.isPlaying v
      { s with bisect := some r.1, isPlaying := r.2 }

/-- C2: for every SearchInterval, bisect with verdict present returns
start = old currentTime, end unchanged, playhead at the midpoint of
currentTime and endTime; bisect with verdict absent returns start
unchanged, end = old currentTime, playhead at the midpoint of startTime
and currentTime. In particular endTime is unchanged for present and
startTime is unchanged for absent. -/
theorem bisect_halving (b : BisectState) :
    handleBisectCore b true =
      { startTime := b.currentTime, endTime := b.endTime,
        currentTime := (b.currentTime + b.endTime) / 2 } ∧
    handleBisectCore b false =
      { startTime := b.startTime, endTime := b.currentTime,
        currentTime := (b.startTime + b.currentTime) / 2 } ∧
    (handleBisectCore b true).endTime = b.endTime ∧
    (handleBisectCore b false).startTime = b.startTime :=
  ⟨rfl, rfl, rfl, rfl⟩

/-- C4: dragging the playhead to a time t whose clamp to [0, duration]
falls outside [startTime, endTime] yields startTime = min of the old
start and the clamped time, endTime = max of the old end and the clamped
time, and currentTime exactly the clamped time: the interval expands
rather than the playhead being clamped to it. -/
theorem playhead_drag_expansion (duration : ℚ) (b : BisectState) (t : ℚ)
    (h : max 0 (min duration t) < b.startTime ∨ b.endTime < max 0 (min duration t)) :
    (playheadMove duration b t).1 =
      { startTime := min b.startTime (max 0 (min duration t)),
        endTime := max b.endTime (max 0 (min duration t)),
        currentTime := max 0 (min duration t) } :=
  rfl

/-- Witness for C4 at duration 100, interval [20, 40] with playhead 30,
dragged to t = 50, which clamps to 50 and lies outside the interval. -/
theorem playhead_drag_expansion_witness :
    (⟨20, 40, 30⟩ : BisectState).endTime < max 0 (min 100 50) ∧
    (playheadMove 100 ⟨20, 40, 30⟩ 50).1 =
      { startTime := min (⟨20, 40, 30⟩ : BisectState).startTime (max 0 (min 100 50)),
        endTime := max (⟨20, 40, 30⟩ : BisectState).endTime (max 0 (min 100 50)),
        currentTime := max 0 (min 100 50) } :=
  ⟨by decide, playhead_drag_expansion 100 ⟨20, 40, 30⟩ 50 (Or.inr (by decide))⟩

/-- C5: while playing, whenever the media primitive reports a time at or
past endTime, the time-update handler issues a seek back to startTime and
the playback flag stays true (no transition to paused). -/
theorem playback_loop (b : BisectState) (v : ℚ) (h : b.endTime ≤ v) :
    (timeUpdateStep b true v).2 = [Action.seekCmd b.startTime] ∧
    (timeUpdateStep b true v).1.2 = true := by
  unfold timeUpdateStep
  simp [h]

/-- Witness for C5, the concrete scenario of the spec: interval [20, 40]
(duration 100), playing from currentTime 39.9; the primitive reports 40,
the handler issues a seek to 20 and playback stays on. -/
theorem playback_loop_witness :
    (timeUpdateStep ⟨20, 40, 399/10⟩ true 40).2 = [Action.seekCmd 20] ∧
    (timeUpdateStep ⟨20, 40, 399/10⟩ true 40).1.2 = true :=
  playback_loop ⟨20, 40, 399/10⟩ 40 (by decide)

/-- C9: for every interval, duration and clicked x-coordinate, the
timeline-click update (modelled from App.tsx lines 283-302) produces
exactly the same successor SearchInterval and the same seek command as a
single playhead drag move to that x-coordinate (modelled from App.tsx
lines 216-232), both going through the same coordinate mapper. -/
theorem timeline_click_refines_playhead_drag (duration : ℚ) (b : BisectState)
    (rectLeft rectWidth clientX : ℚ) :
    timelineClickCore duration b
        (getTimeFromMousePosition rectLeft rectWidth clientX duration) =
      playheadMove duration b
        (getTimeFromMousePosition rectLeft rectWidth clientX duration) :=
  rfl

/-- C3 counterexample: a playhead drag move from interval [20, 40] with
playhead 30 to time 35 changes currentTime, and its effect trace is a
bare seek with no transition of the readiness flag to pending: the drag
handlers never call setIsVideoReady(false). -/
theorem pending_before_seek_counterexample :
    (playheadMove 100 ⟨20, 40, 30⟩ 35).1.currentTime ≠
      (⟨20, 40, 30⟩ : BisectState).currentTime ∧
    (playheadMove 100 ⟨20, 40, 30⟩ 35).2 = [Action.seekCmd 35] ∧
    Action.setPending ∉ (playheadMove 100 ⟨20, 40, 30⟩ 35).2 := by
  refine ⟨?_, ?_, ?_⟩
  · norm_num [playheadMove, min_def, max_def]
  · norm_num [playheadMove, min_def, max_def]
  · simp [playheadMove]

/-- C3 amended: a bisect decision sets readiness to pending before issuing
its seek to the new currentTime; a playhead drag move and a timeline click
issue a seek to the new currentTime but do not set pending; a handle drag
move that pulls currentTime along issues a seek to the new currentTime
(without setting pending), and a handle drag move that changes only a
bound and leaves currentTime alone issues no action at all. -/
theorem pending_before_seek_amended (duration : ℚ) (b : BisectState)
    (t : ℚ) (verdict : Bool) :
    (bisectOp b verdict).2 =
      [Action.setPending, Action.seekCmd (bisectOp b verdict).1.currentTime] ∧
    (playheadMove duration b t).2 =
      [Action.seekCmd (playheadMove duration b t).1.currentTime] ∧
    Action.setPending ∉ (playheadMove duration b t).2 ∧
    (timelineClickCore duration b t).2 =
      [Action.seekCmd (timelineClickCore duration b t).1.currentTime] ∧
    Action.setPending ∉ (timelineClickCore duration b t).2 ∧
    ((startHandleMove b t).1.currentTime ≠ b.currentTime →
      (startHandleMove b t).2 =
        [Action.seekCmd (startHandleMove b t).1.currentTime]) ∧
    ((startHandleMove b t).1.currentTime = b.currentTime →
      (startHandleMove b t).2 = []) ∧
    ((endHandleMove duration b t).1.currentTime ≠ b.currentTime →
      (endHandleMove duration b t).2 =
        [Action.seekCmd (endHandleMove duration b t).1.currentTime]) ∧
    ((endHandleMove duration b t).1.currentTime = b.currentTime →
      (endHandleMove duration b t).2 = []) := by
  refine ⟨rfl, rfl, by simp [playheadMove], rfl, by simp [timelineClickCore],
    ?_, ?_, ?_, ?_⟩
  · unfold startHandleMove
    dsimp only
    split
    · intro _; rfl
    · intro hne; exact absurd rfl hne
  · unfold startHandleMove
    dsimp only
    split
    · next hc =>
        intro heq
        dsimp only at heq
        exact absurd hc (not_lt.mpr (le_of_eq heq))
    · intro _; rfl
  · unfold endHandleMove
    dsimp only
    split
    · intro _; rfl
    · intro hne; exact absurd rfl hne
  · unfold endHandleMove
    dsimp only
    split
    · next hc =>
        intro heq
        dsimp only at heq
        exact absurd hc (not_lt.mpr (le_of_eq heq.symm))
    · intro _; rfl

/-- Witness for the amended C3: a bisect on [0, 600] with playhead 300
emits pending then the seek to 450; a timeline click at time 400 emits a
bare seek; and a startHandle drag of the same interval to 400 pulls the
playhead and emits exactly the seek to 400. -/
theorem pending_before_seek_amended_witness :
    (bisectOp ⟨0, 600, 300⟩ true).2 =
      [Action.setPending, Action.seekCmd (bisectOp ⟨0, 600, 300⟩ true).1.currentTime] ∧
    (timelineClickCore 600 ⟨0, 600, 300⟩ 400).2 =
      [Action.seekCmd (timelineClickCore 600 ⟨0, 600, 300⟩ 400).1.currentTime] ∧
    Action.setPending ∉ (timelineClickCore 600 ⟨0, 600, 300⟩ 400).2 ∧
    (startHandleMove ⟨0, 600, 300⟩ 400).2 =
      [Action.seekCmd (startHandleMove ⟨0, 600, 300⟩ 400).1.currentTime] :=
  ⟨(pending_before_seek_amended 600 ⟨0, 600, 300⟩ 400 true).1,
   (pending_before_seek_amended 600 ⟨0, 600, 300⟩ 400 true).2.2.2.1,
   (pending_before_seek_amended 600 ⟨0, 600, 300⟩ 400 true).2.2.2.2.1,
   (pending_before_seek_amended 600 ⟨0, 600, 300⟩ 400 true).2.2.2.2.2.1
     (by norm_num [startHandleMove, min_def, max_def])⟩

/-- C6: a bisect decision attempted while playing, or while readiness is
pending, or before a video is loaded, is a no-op: the returned state is
unchanged (interval, step count and all other fields) and no action is
issued. -/
theorem bisect_noop_when_blocked (s : AppState) (verdict : Bool)
    (h : s.isPlaying = true ∨ s.isVideoReady = false ∨ s.bisect = none) :
    appBisectClick s verdict = (s, []) := by
  unfold appBisectClick
  rcases h with h | h | h
  · rw [if_pos (Or.inr h)]
  · rw [if_pos (Or.inl (by simp [h]))]
  · split
    · rfl
    · rw [h]

/-- Witness for C6: a bisect attempted on a ready but playing state is the
identity and issues nothing. -/
theorem bisect_noop_when_blocked_witness :
    appBisectClick ⟨some ⟨0, 100, 50⟩, 100, true, 0, true, false⟩ true =
      (⟨some ⟨0, 100, 50⟩, 100, true, 0, true, false⟩, []) :=
  bisect_noop_when_blocked ⟨some ⟨0, 100, 50⟩, 100, true, 0, true, false⟩ true
    (Or.inl rfl)

/-- C7 counterexample: from a loaded 100 s video, dragging the playhead to
0 and then bisecting with verdict absent reaches the invariant-satisfying
state with startTime = endTime = currentTime = 0; on that state a
startHandle drag (to any requested time, here 5) clamps to
max(0, min(endTime - 1, 5)) = 0 and so produces startTime ≥ endTime,
refuting the claim that this can never happen. -/
theorem handle_ordering_counterexample :
    handleBisectCore (playheadMove 100 (initState 100) 0).1 false =
      { startTime := 0, endTime := 0, currentTime := 0 } ∧
    Inv 100 { startTime := 0, endTime := 0, currentTime := 0 } ∧
    (⟨0, 0, 0⟩ : BisectState).endTime ≤
      (startHandleMove ⟨0, 0, 0⟩ 5).1.startTime := by
  refine ⟨?_, ?_, ?_⟩ <;>
    norm_num [Inv, handleBisectCore, playheadMove, initState, startHandleMove,
      min_def, max_def]

/-- C7 amended: provided endTime is strictly positive, dragging the
startHandle to any requested time never produces startTime ≥ endTime
(endTime being unchanged by that drag); unconditionally, dragging the
endHandle never produces endTime ≤ startTime, and in fact always leaves a
gap of at least 1 between them. On the reachable degenerate state with
endTime = 0 the startHandle clamp bottoms out at 0 = endTime. -/
theorem handle_ordering_amended (duration : ℚ) (b : BisectState) (t : ℚ) :
    (0 < b.endTime →
      (startHandleMove b t).1.startTime < (startHandleMove b t).1.endTime) ∧
    (endHandleMove duration b t).1.startTime <
      (endHandleMove duration b t).1.endTime ∧
    (endHandleMove duration b t).1.startTime + 1 ≤
      (endHandleMove duration b t).1.endTime := by
  refine ⟨?_, ?_, ?_⟩
  · intro h
    unfold startHandleMove
    dsimp only
    split
    · exact max_lt h (lt_of_le_of_lt (min_le_left _ _) (by linarith))
    · exact max_lt h (lt_of_le_of_lt (min_le_left _ _) (by linarith))
  · unfold endHandleMove
    dsimp only
    split
    · exact lt_of_lt_of_le (by linarith) (le_max_left _ _)
    · exact lt_of_lt_of_le (by linarith) (le_max_left _ _)
  · unfold endHandleMove
    dsimp only
    split
    all_goals
      show b.startTime + 1 ≤ max (b.startTime + 1) (min duration t)
      exact le_max_left _ _

/-- Witness for the amended C7 on the interval [0, 10] with playhead 5,
dragging either handle towards 3: the positivity side condition holds. -/
theorem handle_ordering_amended_witness :
    (startHandleMove ⟨0, 10, 5⟩ 3).1.startTime <
      (startHandleMove ⟨0, 10, 5⟩ 3).1.endTime ∧
    (endHandleMove 10 ⟨0, 10, 5⟩ 3).1.startTime <
      (endHandleMove 10 ⟨0, 10, 5⟩ 3).1.endTime ∧
    (endHandleMove 10 ⟨0, 10, 5⟩ 3).1.startTime + 1 ≤
      (endHandleMove 10 ⟨0, 10, 5⟩ 3).1.endTime :=
  ⟨(handle_ordering_amended 10 ⟨0, 10, 5⟩ 3).1 (by show (0:ℚ) < 10; norm_num),
   (handle_ordering_amended 10 ⟨0, 10, 5⟩ 3).2.1,
   (handle_ordering_amended 10 ⟨0, 10, 5⟩ 3).2.2⟩

/-- C8 counterexample: the interval [0, 1] with playhead 1/2 has width
exactly the drag granularity 1; a bisect decision with verdict present
shrinks it to width 1/2 with no clamping, and from a loaded 100 s video
(playhead dragged to 0, then verdict absent) a bisect produces an interval
of width exactly 0, refuting both the clamping and the never-zero parts of
the claim. -/
theorem min_width_counterexample :
    (⟨0, 1, 1/2⟩ : BisectState).endTime - (⟨0, 1, 1/2⟩ : BisectState).startTime = 1 ∧
    (handleBisectCore ⟨0, 1, 1/2⟩ true).endTime -
      (handleBisectCore ⟨0, 1, 1/2⟩ true).startTime = 1/2 ∧
    (handleBisectCore (playheadMove 100 (initState 100) 0).1 false).endTime -
      (handleBisectCore (playheadMove 100 (initState 100) 0).1 false).startTime = 0 := by
  refine ⟨?_, ?_, ?_⟩ <;>
    norm_num [handleBisectCore, playheadMove, initState, min_def, max_def]

/-- C8 amended: only the handle drags enforce a minimum width, with
granularity 1 second: an endHandle drag always leaves width at least 1,
and a startHandle drag leaves width at least 1 whenever the interval ends
at or after 1; a bisect decision performs no clamping at all — its
resulting width is exactly endTime - currentTime (verdict present) or
currentTime - startTime (verdict absent), which can fall below the
granularity and even reach zero. -/
theorem min_width_amended (duration : ℚ) (b : BisectState) (t : ℚ) :
    1 ≤ (endHandleMove duration b t).1.endTime -
      (endHandleMove duration b t).1.startTime ∧
    (1 ≤ b.endTime →
      1 ≤ (startHandleMove b t).1.endTime - (startHandleMove b t).1.startTime) ∧
    (handleBisectCore b true).endTime - (handleBisectCore b true).startTime
      = b.endTime - b.currentTime ∧
    (handleBisectCore b false).endTime - (handleBisectCore b false).startTime
      = b.currentTime - b.startTime := by
  refine ⟨?_, ?_, rfl, rfl⟩
  · unfold endHandleMove
    dsimp only
    split
    all_goals
      show 1 ≤ max (b.startTime + 1) (min duration t) - b.startTime
      have hle := le_max_left (b.startTime + 1) (min duration t)
      linarith
  · intro h
    unfold startHandleMove
    dsimp only
    split
    all_goals
      show 1 ≤ b.endTime - max 0 (min (b.endTime - 1) t)
      have hle : max 0 (min (b.endTime - 1) t) ≤ b.endTime - 1 :=
        max_le (by linarith) (min_le_left _ _)
      linarith

/-- Witness for the amended C8 on the interval [0, 10] with playhead 5,
drag target 3: the startHandle side condition 1 ≤ 10 holds. -/
theorem min_width_amended_witness :
    1 ≤ (endHandleMove 10 ⟨0, 10, 5⟩ 3).1.endTime -
      (endHandleMove 10 ⟨0, 10, 5⟩ 3).1.startTime ∧
    1 ≤ (startHandleMove ⟨0, 10, 5⟩ 3).1.endTime -
      (startHandleMove ⟨0, 10, 5⟩ 3).1.startTime ∧
    (handleBisectCore ⟨0, 10, 5⟩ true).endTime -
      (handleBisectCore ⟨0, 10, 5⟩ true).startTime =
      (⟨0, 10, 5⟩ : BisectState).endTime - (⟨0, 10, 5⟩ : BisectState).currentTime ∧
    (handleBisectCore ⟨0, 10, 5⟩ false).endTime -
      (handleBisectCore ⟨0, 10, 5⟩ false).startTime =
      (⟨0, 10, 5⟩ : BisectState).currentTime - (⟨0, 10, 5⟩ : BisectState).startTime :=
  ⟨(min_width_amended 10 ⟨0, 10, 5⟩ 3).1,
   (min_width_amended 10 ⟨0, 10, 5⟩ 3).2.1 (by show (1:ℚ) ≤ 10; norm_num),
   (min_width_amended 10 ⟨0, 10, 5⟩ 3).2.2.1,
   (min_width_amended 10 ⟨0, 10, 5⟩ 3).2.2.2⟩

/-- C10: for every application state, drags of every kind and timeline
clicks leave the step count and the playback flag untouched; a bisect
decision that goes through (ready, not playing, interval present)
increments the step count by exactly 1, and a blocked bisect attempt
leaves it unchanged; reset and loading a new file set it to 0; and the
play/pause toggle, a time update and a primitive pause never change it. -/
theorem step_count_frame (s : AppState) (kind : DragKind)
    (rectLeft rectWidth clientX v : ℚ) (verdict : Bool) :
    (appDragMove s kind rectLeft rectWidth clientX).1.stepCount = s.stepCount ∧
    (appDragMove s kind rectLeft rectWidth clientX).1.isPlaying = s.isPlaying ∧
    (appTimelineClick s rectLeft rectWidth clientX).1.stepCount = s.stepCount ∧
    (appTimelineClick s rectLeft rectWidth clientX).1.isPlaying = s.isPlaying ∧
    (s.isVideoReady = true → s.isPlaying = false → s.bisect ≠ none →
      (appBisectClick s verdict).1.stepCount = s.stepCount + 1) ∧
    (s.isVideoReady = false ∨ s.isPlaying = true ∨ s.bisect = none →
      (appBisectClick s verdict).1.stepCount = s.stepCount) ∧
    (appReset s).stepCount = 0 ∧
    (appFileSelect s).stepCount = 0 ∧
    (appPlayPause s v).1.stepCount = s.stepCount ∧
    (appTimeUpdate s v).1.stepCount = s.stepCount ∧
    (appPauseEvent s v).stepCount = s.stepCount := by
  refine ⟨?_, ?_, ?_, ?_, ?_, ?_, rfl, rfl, ?_, ?_, ?_⟩
  · unfold appDragMove
    split
    · rfl
    · cases s.bisect
      · rfl
      · rfl
  · unfold appDragMove
    split
    · rfl
    · cases s.bisect
      · rfl
      · rfl
  · unfold appTimelineClick
    split
    · rfl
    · cases s.bisect
      · rfl
      · rfl
  · unfold appTimelineClick
    split
    · rfl
    · cases s.bisect
      · rfl
      · rfl
  · intro hready hplay hsome
    obtain ⟨b, hb⟩ := Option.ne_none_iff_exists'.mp hsome
    unfold appBisectClick
    rw [if_neg (by simp [hready, hplay]), hb]
  · intro hblocked
    unfold appBisectClick
    rcases hblocked with h | h | h
    · rw [if_pos (Or.inl (by simp [h]))]
    · rw [if_pos (Or.inr h)]
    · split
      · rfl
      · rw [h]
  · unfold appPlayPause
    cases s.bisect
    · rfl
    · rfl
  · unfold appTimeUpdate
    cases s.bisect
    · rfl
    · rfl
  · unfold appPauseEvent
    cases s.bisect
    · rfl
    · rfl

/-- Witness for C10 on a loaded, ready, paused state mid-drag with
interval [0, 100], playhead 50 and step count 3 — exercising the bisect
increment there — and on the same state while playing, exercising the
blocked-bisect conjunct. -/
theorem step_count_frame_witness :
    (appDragMove ⟨some ⟨0, 100, 50⟩, 100, true, 3, false, true⟩
        DragKind.playhead 0 400 120).1.stepCount =
      (⟨some ⟨0, 100, 50⟩, 100, true, 3, false, true⟩ : AppState).stepCount ∧
    (appDragMove ⟨some ⟨0, 100, 50⟩, 100, true, 3, false, true⟩
        DragKind.playhead 0 400 120).1.isPlaying =
      (⟨some ⟨0, 100, 50⟩, 100, true, 3, false, true⟩ : AppState).isPlaying ∧
    (appBisectClick ⟨some ⟨0, 100, 50⟩, 100, true, 3, false, true⟩
        true).1.stepCount =
      (⟨some ⟨0, 100, 50⟩, 100, true, 3, false, true⟩ : AppState).stepCount + 1 ∧
    (appBisectClick ⟨some ⟨0, 100, 50⟩, 100, true, 3, true, true⟩
        true).1.stepCount =
      (⟨some ⟨0, 100, 50⟩, 100, true, 3, true, true⟩ : AppState).stepCount ∧
    (appReset ⟨some ⟨0, 100, 50⟩, 100, true, 3, false, true⟩).stepCount = 0 ∧
    (appTimeUpdate ⟨some ⟨0, 100, 50⟩, 100, true, 3, false, true⟩ 35).1.stepCount =
      (⟨some ⟨0, 100, 50⟩, 100, true, 3, false, true⟩ : AppState).stepCount := by
  have h := step_count_frame ⟨some ⟨0, 100, 50⟩, 100, true, 3, false, true⟩
    DragKind.playhead 0 400 120 35 true
  have h2 := step_count_frame ⟨some ⟨0, 100, 50⟩, 100, true, 3, true, true⟩
    DragKind.playhead 0 400 120 35 true
  exact ⟨h.1, h.2.1,
    h.2.2.2.2.1 rfl rfl (Option.some_ne_none (⟨0, 100, 50⟩ : BisectState)),
    h2.2.2.2.2.2.1 (Or.inr (Or.inl rfl)),
    h.2.2.2.2.2.2.1, h.2.2.2.2.2.2.2.2.2.1⟩

end TheftBisect
